import Mathlib

/-!
Verification of the xplane repository core: the remote-URL parser, the
branch-divergence calculator of the GitLab provider, the GitHub release
lookup, the context gathering loop, the snapshot compare loop, and the
knowledge ledger.  Each definition is a shallow embedding of the
corresponding Go function; external effects (HTTP responses, file
contents, subprocess output) are passed in as explicit parameters.
-/

/-! ## String helpers mirroring the Go standard library functions used in the source -/

/-- Character class of Go strings.TrimSpace for the Latin-1 range
(unicode.IsSpace fast path): space, tab, newline, vertical tab, form feed,
carriage return, next line, no-break space. -/
def isSpaceGo (c : Char) : Bool :=
  c = ' ' || c = '\t' || c = '\n' || c = '\x0b' || c = '\x0c' || c = '\r' ||
  c = '\x85' || c = '\xa0'

/-- Go strings.TrimSpace: drop leading and trailing whitespace. -/
def trimSpace (s : String) : String :=
  String.mk (((s.data.dropWhile isSpaceGo).reverse.dropWhile isSpaceGo).reverse)

/-- Go strings.ToUpper restricted to the ASCII letters appearing in the
keywords the source compares against. -/
def toUpperStr (s : String) : String :=
  String.mk (s.data.map Char.toUpper)

/-- Whether the character list `s` begins with the pattern `pat`. -/
def listStartsWith : List Char → List Char → Bool
  | _, [] => true
  | [], _ :: _ => false
  | c :: cs, p :: ps => c == p && listStartsWith cs ps

/-- Go strings.HasPrefix. -/
def strStartsWith (s pre : String) : Bool :=
  listStartsWith s.data pre.data

/-- Whether the character list `s` has `sub` as a substring (scan every suffix). -/
def hasSubstrList (sub : List Char) : List Char → Bool
  | [] => listStartsWith [] sub
  | c :: rest => listStartsWith (c :: rest) sub || hasSubstrList sub rest

/-- Go strings.Contains. -/
def strContains (s sub : String) : Bool :=
  hasSubstrList sub.data s.data

/-- Splitting on the newline character, on character lists.  The result is
never empty: an empty input yields the single empty line, as Go
strings.Split does. -/
def splitLinesAux : List Char → List (List Char)
  | [] => [[]]
  | c :: rest =>
    let r := splitLinesAux rest
    if c = '\n' then [] :: r
    else
      match r with
      | [] => [[c]]
      | h :: t => (c :: h) :: t

/-- Go strings.Split(s, "\n"). -/
def splitLines (s : String) : List String :=
  (splitLinesAux s.data).map String.mk

/-- Interleave the newline character between line contents, on character
lists. -/
def charJoinLines : List (List Char) → List Char
  | [] => []
  | [l] => l
  | l :: ls => l ++ '\n' :: charJoinLines ls

/-- Go strings.Join(lines, "\n"). -/
def joinLines (lines : List String) : String :=
  String.mk (charJoinLines (lines.map String.data))

/-! ## Data model: git entities (src/unnamed/part_005) -/

/-- BranchComparison record; AheadBy and BehindBy are commit counts. -/
structure BranchComparison where
  AheadBy : Nat
  BehindBy : Nat
  Status : String
deriving DecidableEq, Repr

/-- Release record returned by the release lookups. -/
structure Release where
  TagName : String
  Name : String
  URL : String
  PublishedAt : String
deriving DecidableEq, Repr

/-! ## Branch divergence calculator (GitlabProvider.CompareBranchWithDefault) -/

/-- First loop of the manual comparison (part_005 lines 279-287): scan the
fork commit list newest-first, counting commits until one is in the
upstream membership set; returns (aheadBy, mergeBaseSHA), where
mergeBaseSHA keeps its Go zero value "" when no commit matches. -/
def findMergeBase (inUpstream : String → Bool) : List String → Nat × String
  | [] => (0, "")
  | commit :: rest =>
    if inUpstream commit then (0, commit)
    else
      let r := findMergeBase inUpstream rest
      (r.1 + 1, r.2)

/-- Second loop (part_005 lines 293-299): count upstream commits strictly
before the merge base. -/
def countBehind (mergeBaseSHA : String) : List String → Nat
  | [] => 0
  | commit :: rest =>
    if commit == mergeBaseSHA then 0 else countBehind mergeBaseSHA rest + 1

/-- Status derivation (part_005 lines 301-308): start from "diverged" and
overwrite through the if chain. -/
def statusFor (aheadBy behindBy : Nat) : String :=
  if aheadBy > 0 ∧ behindBy = 0 then "ahead"
  else if aheadBy = 0 ∧ behindBy > 0 then "behind"
  else if aheadBy = 0 ∧ behindBy = 0 then "identical"
  else "diverged"

/-- Manual cross-fork comparison core (part_005 lines 263-315).  The two
paginated commit listings are passed in as the newest-first lists the Go
code materializes; the upstream membership map is list membership. -/
def compareBranchToDefault (upstreamCommits forkCommits : List String) :
    Except String BranchComparison :=
  let inUpstream : String → Bool := fun id => upstreamCommits.contains id
  let scan := findMergeBase inUpstream forkCommits
  let aheadBy := scan.1
  let mergeBaseSHA := scan.2
  if mergeBaseSHA == "" then
    Except.error "could not find a common ancestor for the compared branches"
  else
    let behindBy := countBehind mergeBaseSHA upstreamCommits
    Except.ok ⟨aheadBy, behindBy, statusFor aheadBy behindBy⟩

/-- GitlabProvider.CompareBranchWithDefault (part_005 lines 249-315): the
project lookup that resolves the default branch is summarized by the
`defaultBranch` argument; on the self-comparison short circuit the Go code
returns a BranchComparison whose integer fields keep their zero values. -/
def GitlabProvider.CompareBranchWithDefault
    (defaultBranch owner forkOwner localBranch : String)
    (upstreamCommits forkCommits : List String) : Except String BranchComparison :=
  if localBranch == defaultBranch && owner == forkOwner then
    Except.ok ⟨0, 0, "identical"⟩
  else
    compareBranchToDefault upstreamCommits forkCommits

/-- GithubProvider.CompareBranchWithDefault (part_005 lines 106-134): after
the same short circuit it forwards the comparison returned by the native
compare endpoint, whose outcome is the `native` argument. -/
def GithubProvider.CompareBranchWithDefault
    (defaultBranch owner forkOwner localBranch : String)
    (native : Except String BranchComparison) : Except String BranchComparison :=
  if localBranch == defaultBranch && owner == forkOwner then
    Except.ok ⟨0, 0, "identical"⟩
  else
    match native with
    | Except.error e => Except.error ("xplane: could not compare branches: " ++ e)
    | Except.ok comparison => Except.ok ⟨comparison.AheadBy, comparison.BehindBy, comparison.Status⟩

/-- Status invariant stated by the specification: the status string is the
deterministic function of the two counters. -/
def statusInvariant (c : BranchComparison) : Prop :=
  (c.Status = "identical" ↔ c.AheadBy = 0 ∧ c.BehindBy = 0) ∧
  (c.Status = "ahead" ↔ c.AheadBy > 0 ∧ c.BehindBy = 0) ∧
  (c.Status = "behind" ↔ c.AheadBy = 0 ∧ c.BehindBy > 0) ∧
  (c.Status = "diverged" ↔ c.AheadBy > 0 ∧ c.BehindBy > 0)

instance (c : BranchComparison) : Decidable (statusInvariant c) := by
  unfold statusInvariant; infer_instance

/-! ## Remote URL parser (src/unnamed/part_005 lines 14-28)

The Go pattern is
  (?:git@|https://)([\w.-]+)(?::|/)([\w.-]+)/([\w.-]+?)(\.git)?$
compiled with regexp.MustCompile, hence leftmost-first (Perl style)
matching.  The matcher below is that pattern specialized: the engine scans
start positions left to right; at a position the alternation tries git@
then https://; the greedy one-or-more classes can only end where a word
character stops (the separators : and / are not word characters, so no
shorter greedy split can be followed by a separator); the lazy third group
is realized by preferring the shortest run that lets the greedy optional
.git and the end anchor succeed. -/

/-- RE2 word-class character plus the two extra class members: [\w.-]. -/
def isWordChar (c : Char) : Bool :=
  c.isAlphanum || c = '_' || c = '.' || c = '-'

/-- Longest leading run of word characters and the remainder. -/
def spanWord : List Char → List Char × List Char
  | [] => ([], [])
  | c :: rest =>
    if isWordChar c then
      let r := spanWord rest
      (c :: r.1, r.2)
    else ([], c :: rest)

/-- Lazy match of `([\w.-]+?)(\.git)?$`: consume word characters one at a
time, testing the optional suffix and the end anchor after each. -/
def matchRepoTail : List Char → Option (List Char)
  | [] => none
  | c :: rest =>
    if isWordChar c then
      if rest = ['.', 'g', 'i', 't'] then some [c]
      else if rest = [] then some [c]
      else
        match matchRepoTail rest with
        | some g3 => some (c :: g3)
        | none => none
    else none

/-- Match `([\w.-]+)(?::|/)([\w.-]+)/([\w.-]+?)(\.git)?$` at the current
position, returning the three captures. -/
def matchAfterScheme (s : List Char) : Option (String × String × String) :=
  let sp1 := spanWord s
  match sp1 with
  | (g1, rest1) =>
    if g1 = [] then none
    else
      match rest1 with
      | sep :: rest2 =>
        if sep = ':' || sep = '/' then
          let sp2 := spanWord rest2
          match sp2 with
          | (g2, rest3) =>
            if g2 = [] then none
            else
              match rest3 with
              | '/' :: rest4 =>
                match matchRepoTail rest4 with
                | some g3 => some (String.mk g1, String.mk g2, String.mk g3)
                | none => none
              | _ => none
        else none
      | [] => none

/-- Try the alternation `(?:git@|https://)` at this position and, on
success, the rest of the pattern. -/
def tryMatchAt (s : List Char) : Option (String × String × String) :=
  if s.take 4 = ['g', 'i', 't', '@'] then matchAfterScheme (s.drop 4)
  else if s.take 8 = ['h', 't', 't', 'p', 's', ':', '/', '/'] then matchAfterScheme (s.drop 8)
  else none

/-- Unanchored leftmost search: first start position at which the whole
pattern matches. -/
def findLeftmost : List Char → Option (String × String × String)
  | [] => tryMatchAt []
  | c :: rest =>
    match tryMatchAt (c :: rest) with
    | some r => some r
    | none => findLeftmost rest

/-- parseGitURL (part_005 lines 16-28): FindStringSubmatch either yields
all three mandatory captures or no match at all, in which case the
function fails with the parse error. -/
def parseGitURL (url : String) : Except String (String × String × String) :=
  match findLeftmost url.data with
  | none => Except.error ("could not parse owner and repo from url: " ++ url)
  | some (host, owner, repoName) => Except.ok (host, owner, repoName)

/-! ## GitHub release lookup (src/unnamed/part_005 lines 88-104) -/

/-- Outcome of the go-github GetLatestRelease call, as seen by the error
handling in the source: either a release payload, an ErrorResponse
carrying the HTTP status code of a completed request, or any other
failure (transport errors, failed type assertion). -/
inductive GithubReleaseOutcome where
  | payload (tagName name url publishedAt : String)
  | errorResponse (statusCode : Nat)
  | otherFailure (msg : String)
deriving DecidableEq, Repr

/-- GithubProvider.GetLatestRelease (part_005 lines 88-104).  The
PublishedAt formatting of the success path is applied before the payload
is passed in. -/
def GithubProvider.GetLatestRelease (outcome : GithubReleaseOutcome) : Except String Release :=
  match outcome with
  | GithubReleaseOutcome.payload tagName name url publishedAt =>
      Except.ok ⟨tagName, name, url, publishedAt⟩
  | GithubReleaseOutcome.errorResponse statusCode =>
      if statusCode ≥ 400 then Except.ok ⟨"No releases found", "", "", ""⟩
      else Except.error ("xplane: error fetching latest release from Github: status " ++ toString statusCode)
  | GithubReleaseOutcome.otherFailure msg =>
      Except.error ("xplane: error fetching latest release from Github: " ++ msg)

/-! ## Configuration and file system model (src/context.go)

Only the Config fields read by the embedded functions are modelled; the
remaining fields (tokens, provider, model name) feed collaborators that
appear here as parameters.  The file system records the three files the
compare loop touches. -/

structure Config where
  Commands : List String
  UseProjectKnowledge : Bool
deriving Repr

structure FileSystem where
  staticFile : Option String
  dynamicFile : Option String
  knowledgeFile : Option String
deriving DecidableEq, Repr

/-- Default static prompt template (src/main.go lines 11-24, a raw Go
string literal with tab indentation). -/
def defaultStaticContext : String :=
  "\n\t\tYou are a helpful project assistant. Your goal is to provide a clear and concise summary of the project\x27s changes.\n\n\t\tSummarize the key differences between the PREVIOUS and CURRENT states provided below.\n\n\t\t--- PREVIOUS STATE ---\n\t\t\x7b\x7bPREVIOUS_CONTEXT\x7d\x7d\n\n\t\t--- CURRENT STATE ---\n\t\t\x7b\x7bCURRENT_CONTEXT\x7d\x7d\n\n\t\t---\n\t\tAdd a section at the end of your responses labeled \x27UNCERTAINTY MAP\x27, where you describe what you\x27re least confident about and what questions would change your opinion.\n\t"

/-- createPlaceHolderContext (context.go lines 14-22). -/
def createPlaceHolderContext (cfg : Config) : String :=
  cfg.Commands.foldl
    (fun acc command =>
      acc ++ "---CONTEXT FROM: " ++ trimSpace command ++ " ---\nFirst run, no context available yet.\n\n")
    ""

/-! ## Context gathering loop (context.go lines 25-83)

Producer invocations (built-in handlers and arbitrary external commands)
are summarized by the oracle `run`, mapping each trimmed command name to
the (output, error) pair the Go handler call or subprocess returns.
`initFailed` records whether initProvider returned an error;
`providerName` is what GetProviderName returns when it did not. -/

/-- The four command names routed through the git provider. -/
def isGitProviderBasedCommand (trimmedCmd : String) : Bool :=
  trimmedCmd == "github_prs" || trimmedCmd == "gitlab_mrs" ||
  trimmedCmd == "release" || trimmedCmd == "git_branch_status"

/-- A provider command is skipped (continue) when the provider failed to
initialize, or when its name does not fit the initialized provider
(context.go lines 54-67). -/
def commandSkipped (initFailed : Bool) (providerName trimmedCmd : String) : Bool :=
  isGitProviderBasedCommand trimmedCmd &&
    (initFailed ||
     (providerName == "github" && trimmedCmd == "gitlab_mrs") ||
     (providerName == "gitlab" && trimmedCmd == "github_prs"))

/-- The loop of gatherContext (context.go lines 47-80): skipped commands
contribute nothing; the first failing producer aborts the pass with an
error; otherwise each output is appended in input order inside its
CONTEXT FROM delimiter. -/
def gatherLoop (initFailed : Bool) (providerName : String)
    (run : String → Except String String) : List String → Except String String
  | [] => Except.ok ""
  | command :: rest =>
    let trimmedCmd := trimSpace command
    if commandSkipped initFailed providerName trimmedCmd then
      gatherLoop initFailed providerName run rest
    else
      match run trimmedCmd with
      | Except.error e =>
          Except.error ("error running command \x27" ++ trimmedCmd ++ "\x27: " ++ e)
      | Except.ok output =>
          match gatherLoop initFailed providerName run rest with
          | Except.error e2 => Except.error e2
          | Except.ok s =>
              Except.ok ("---CONTEXT FROM: " ++ trimmedCmd ++ " ---\n" ++ output ++ "\n\n" ++ s)

/-- gatherContext (context.go lines 25-83). -/
def gatherContext (cfg : Config) (initFailed : Bool) (providerName : String)
    (run : String → Except String String) : Except String String :=
  gatherLoop initFailed providerName run cfg.Commands

/-! ## Knowledge ledger (context.go lines 201-322) -/

/-- Placeholder body written on the first read of the ledger. -/
def initialKnowledgeContent : String :=
  "*This file will be automatically updated with project insights and important context.*"

/-- Header-stripping step of writeKnowledgeFile (context.go lines 235-244):
recover the accumulated body from a ledger that carries the standard
header, blank line and last-updated line. -/
def stripKnowledgeHeader (existingData : String) : String :=
  let lines := splitLines existingData
  if lines.length ≥ 3 && strStartsWith (lines.headD "") "# Project Knowledge" then
    trimSpace (joinLines (lines.drop 3))
  else existingData

/-- writeKnowledgeFile (context.go lines 227-260); `existing` is the
current ledger file content (none when the file does not exist, in which
case the Go read fails and the existing content stays empty), `timestamp`
the formatted time.Now value. -/
def writeKnowledgeFile (existing : Option String) (timestamp newContent : String) : String :=
  let existingContent :=
    match existing with
    | none => ""
    | some existingData => stripKnowledgeHeader existingData
  if existingContent == "" || existingContent == initialKnowledgeContent then
    "# Project Knowledge\n\n*Last updated: " ++ timestamp ++ "*\n\n" ++ newContent
  else
    "# Project Knowledge\n\n*Last updated: " ++ timestamp ++ "*\n\n## Latest Update (" ++
      timestamp ++ ")\n\n" ++ newContent ++ "\n\n---\n\n## Previous Knowledge\n\n" ++ existingContent

/-- readKnowledgeFile (context.go lines 202-224) acting on the modelled
file system: on a missing ledger it initializes the file through
writeKnowledgeFile and returns the timestamped content just written. -/
def readKnowledgeFileModel (fs : FileSystem) (timestamp : String) : String × FileSystem :=
  match fs.knowledgeFile with
  | none =>
      let written := writeKnowledgeFile none timestamp initialKnowledgeContent
      ("# Project Knowledge\n\n*Last updated: " ++ timestamp ++ "*\n\n" ++ initialKnowledgeContent,
       ⟨fs.staticFile, fs.dynamicFile, some written⟩)
  | some content => (content, fs)

/-! ## Knowledge update extraction (context.go lines 263-322) -/

/-- Header detection of the scanning loop (context.go lines 271-273): the
three redundant disjuncts are kept as written. -/
def isKnowledgeHeaderLine (line : String) : Bool :=
  strContains (toUpperStr line) "KNOWLEDGE UPDATE" ||
  strContains (toUpperStr line) "## KNOWLEDGE UPDATE" ||
  strContains (toUpperStr line) "### KNOWLEDGE UPDATE"

/-- Stopping condition inside the capture (context.go lines 286-291). -/
def isStopLine (line : String) (captured : Nat) : Bool :=
  let trimmedLine := trimSpace line
  (strContains (toUpperStr line) "UNCERTAINTY MAP" && captured > 0) ||
  (strStartsWith trimmedLine "## " &&
    !strContains (toUpperStr trimmedLine) "KNOWLEDGE" && captured > 3) ||
  (strStartsWith trimmedLine "# " &&
    !strContains (toUpperStr trimmedLine) "KNOWLEDGE" && captured > 3)

/-- The for loop of extractKnowledgeUpdate (context.go lines 269-301).
`inSection` stands for the pair inKnowledgeSection/foundHeader, which the
Go code always updates together; the final `i == len(lines)-1` break is a
no-op since the loop ends there anyway. -/
def extractLoop (inSection : Bool) (acc : List String) : List String → List String
  | [] => acc
  | line :: rest =>
    if !inSection && isKnowledgeHeaderLine line then
      extractLoop true acc rest
    else if inSection then
      if acc.length == 0 && trimSpace line == "" then
        extractLoop true acc rest
      else if isStopLine line acc.length then
        acc
      else
        extractLoop true (acc ++ [line]) rest
    else
      extractLoop false acc rest

/-- Trailing blank line cleanup (context.go lines 308-310). -/
def dropTrailingBlanks : List String → List String
  | [] => []
  | line :: rest =>
    let r := dropTrailingBlanks rest
    if r.isEmpty && trimSpace line == "" then [] else line :: r

/-- extractKnowledgeUpdate (context.go lines 263-322).  The final length
guard is Go len, i.e. the UTF-8 byte size of the result. -/
def extractKnowledgeUpdate (response : String) : String :=
  let lines := splitLines response
  let knowledgeLines := extractLoop false [] lines
  if knowledgeLines.length == 0 then ""
  else
    let cleaned := dropTrailingBlanks knowledgeLines
    let result := trimSpace (joinLines cleaned)
    if result.utf8ByteSize < 50 then "" else result

/-! ## Snapshot compare loop (context.go lines 85-199) -/

/-- Knowledge instruction block appended to the static prompt
(context.go lines 139-166). -/
def knowledgeSection (knowledgeContent : String) : String :=
  "\n\n--- PROJECT KNOWLEDGE ---\n" ++ knowledgeContent ++
  "\n\nCRITICAL KNOWLEDGE MANAGEMENT INSTRUCTIONS:\nThis project maintains a living knowledge base at .xplane/KNOWLEDGE.md that must grow over time.\n\nCurrent knowledge above represents the institutional memory of this project. Your task is to:\n\n1. READ the existing knowledge carefully - it contains important context about the project\x27s evolution\n2. ANALYZE the current changes in relation to this existing knowledge\n3. If this session reveals any of the following, you MUST include a \x27KNOWLEDGE UPDATE\x27 section:\n   - New architectural decisions or technology stack changes\n   - Important bug fixes or patterns discovered\n   - Significant feature additions or modifications\n   - Development workflow changes\n   - Dependencies or configuration changes\n   - Any insights that would help future development sessions\n\nKNOWLEDGE UPDATE format:\n- Include a \x27KNOWLEDGE UPDATE\x27 section in your response containing ONLY NEW insights\n- Focus on what\x27s NEW or CHANGED since the last session\n- DO NOT repeat existing knowledge - the system will preserve it automatically\n- Organize new insights by: Architecture, Recent Changes, Important Patterns, Development Notes\n- Be comprehensive about NEW information that would help future development sessions\n\nYour KNOWLEDGE UPDATE should contain only fresh insights - existing knowledge will be preserved automatically in a timeline format."

/-- contextCompare (context.go lines 85-199) as a transformer of the
modelled file system.  The Summarizer collaborator is the `summarize`
parameter; `timestamp` stands for the formatted time.Now values; gather
failures reproduce log.Fatalf, which exits before any snapshot write.
The deferred write of the fetched context (lines 122-126) is registered
after the Unchanged check and the code below it has a single exit, so it
is applied exactly once at the end of the Changed branch. -/
def contextCompare (fs : FileSystem) (cfg : Config) (initFailed : Bool)
    (providerName : String) (run : String → Except String String)
    (summarize : String → Except String String) (timestamp : String) : FileSystem :=
  let stat :=
    match fs.staticFile with
    | none => (defaultStaticContext,
               (⟨some defaultStaticContext, fs.dynamicFile, fs.knowledgeFile⟩ : FileSystem))
    | some s => (s, fs)
  let staticPromptBytes := stat.1
  let fs1 := stat.2
  match gatherContext cfg initFailed providerName run with
  | Except.error _ => fs1
  | Except.ok fetchedDynamicContext =>
    match fs1.dynamicFile with
    | none =>
        ⟨fs1.staticFile, some (createPlaceHolderContext cfg), fs1.knowledgeFile⟩
    | some previousDynamicContext =>
      if fetchedDynamicContext == previousDynamicContext then fs1
      else
        let know :=
          if cfg.UseProjectKnowledge then
            let r := readKnowledgeFileModel fs1 timestamp
            (staticPromptBytes ++ knowledgeSection r.1, r.2)
          else (staticPromptBytes, fs1)
        let staticPrompt := know.1
        let fs2 := know.2
        let finalPrompt :=
          (staticPrompt.replace "\x7b\x7bCURRENT_CONTEXT\x7d\x7d" fetchedDynamicContext).replace
            "\x7b\x7bPREVIOUS_CONTEXT\x7d\x7d" previousDynamicContext
        let fs3 :=
          match summarize finalPrompt with
          | Except.error _ => fs2
          | Except.ok summary =>
            if cfg.UseProjectKnowledge then
              let updatedKnowledge := extractKnowledgeUpdate summary
              if updatedKnowledge != "" then
                ⟨fs2.staticFile, fs2.dynamicFile,
                 some (writeKnowledgeFile fs2.knowledgeFile timestamp updatedKnowledge)⟩
              else fs2
            else fs2
        ⟨fs3.staticFile, some fetchedDynamicContext, fs3.knowledgeFile⟩

/-! ## Specification-side definitions

These follow the wording of the specification and of the claims, to be
compared with the definitions translated from the source. -/

/-- Spec side of the gathering loop: the labeled sections of the processed
producers in input order, first failure aborting the pass. -/
def gatherSectionsSpec (run : String → Except String String) : List String → Except String String
  | [] => Except.ok ""
  | c :: rest =>
    match run c with
    | Except.error e => Except.error ("error running command \x27" ++ c ++ "\x27: " ++ e)
    | Except.ok output =>
      match gatherSectionsSpec run rest with
      | Except.error e2 => Except.error e2
      | Except.ok s => Except.ok ("---CONTEXT FROM: " ++ c ++ " ---\n" ++ output ++ "\n\n" ++ s)

/-- The two states of the extraction automaton described in the spec. -/
inductive ExtractState where
  | Searching
  | Capturing
deriving DecidableEq, Repr

/-- Spec side of the extraction scan: in Searching, a line containing
KNOWLEDGE UPDATE case-insensitively starts the capture without being
captured; in Capturing, blank lines before any content are skipped, a
line mentioning UNCERTAINTY MAP ends the capture once content exists, and
a heading line not mentioning KNOWLEDGE ends it only when at least four
lines are already captured. -/
def extractSpecLoop (st : ExtractState) (acc : List String) : List String → List String
  | [] => acc
  | line :: rest =>
    match st with
    | ExtractState.Searching =>
      if strContains (toUpperStr line) "KNOWLEDGE UPDATE" then
        extractSpecLoop ExtractState.Capturing acc rest
      else
        extractSpecLoop ExtractState.Searching acc rest
    | ExtractState.Capturing =>
      if acc = [] ∧ trimSpace line = "" then
        extractSpecLoop ExtractState.Capturing acc rest
      else if (strContains (toUpperStr line) "UNCERTAINTY MAP" ∧ acc ≠ []) ∨
              ((strStartsWith (trimSpace line) "## " ∨ strStartsWith (trimSpace line) "# ") ∧
                strContains (toUpperStr (trimSpace line)) "KNOWLEDGE" = false ∧
                4 ≤ acc.length) then
        acc
      else
        extractSpecLoop ExtractState.Capturing (acc ++ [line]) rest

/-- Spec side of extractUpdate: capture, trim trailing blank lines, and
discard any result shorter than 50 bytes of UTF-8. -/
def extractUpdateSpec (response : String) : String :=
  let captured := extractSpecLoop ExtractState.Searching [] (splitLines response)
  if captured = [] then ""
  else
    let result := trimSpace (joinLines (dropTrailingBlanks captured))
    if result.utf8ByteSize < 50 then "" else result

/-! ## Lemmas on the divergence scans -/

lemma findMergeBase_eq (p : String → Bool) (l : List String) :
    findMergeBase p l = ((l.takeWhile (fun x => !p x)).length, (l.find? p).getD "") := by
  induction l with
  | nil => rfl
  | cons c rest ih =>
    by_cases hc : p c = true
    · simp [findMergeBase, List.takeWhile, List.find?, hc]
    · simp only [Bool.not_eq_true] at hc
      simp [findMergeBase, List.takeWhile, List.find?, hc, ih]

lemma countBehind_eq (m : String) (l : List String) :
    countBehind m l = (l.takeWhile (fun x => x != m)).length := by
  induction l with
  | nil => rfl
  | cons c rest ih =>
    by_cases hc : (c == m) = true
    · simp [countBehind, List.takeWhile, hc, bne]
    · simp only [Bool.not_eq_true] at hc
      simp [countBehind, List.takeWhile, hc, ih, bne]

/-- C1: in the manual divergence calculation, aheadBy counts the fork
commits scanned newest-to-oldest strictly before the first commit present
in the upstream membership set, that first matching commit is the merge
base, and behindBy counts the upstream commits strictly before the merge
base.  Instantiated at upstream [C, B, A] and fork [E, D, B, A] by the
witness, this yields aheadBy 2, behindBy 1, status diverged, merge base B. -/
theorem compareBranchToDefault_counts (upstreamCommits forkCommits : List String)
    (c : BranchComparison)
    (h : compareBranchToDefault upstreamCommits forkCommits = Except.ok c) :
    c.AheadBy = (forkCommits.takeWhile (fun x => !upstreamCommits.contains x)).length ∧
    ∃ mergeBase, forkCommits.find? (fun x => upstreamCommits.contains x) = some mergeBase ∧
      c.BehindBy = (upstreamCommits.takeWhile (fun x => x != mergeBase)).length := by
  simp only [compareBranchToDefault, findMergeBase_eq] at h
  rcases hf : forkCommits.find? (fun x => upstreamCommits.contains x) with _ | m
  · rw [hf] at h; simp at h
  · rw [hf] at h
    simp only [Option.getD_some] at h
    by_cases hm : (m == "") = true
    · rw [if_pos hm] at h; cases h
    · rw [if_neg (by simp [hm])] at h
      injection h with h2
      subst h2
      exact ⟨rfl, m, rfl, countBehind_eq m upstreamCommits⟩

theorem compareBranchToDefault_counts_witness :
    (BranchComparison.mk 2 1 "diverged").AheadBy
        = ((["E", "D", "B", "A"] : List String).takeWhile
            (fun x => !(["C", "B", "A"] : List String).contains x)).length ∧
    ∃ mergeBase,
      (["E", "D", "B", "A"] : List String).find?
          (fun x => (["C", "B", "A"] : List String).contains x) = some mergeBase ∧
      (BranchComparison.mk 2 1 "diverged").BehindBy
          = ((["C", "B", "A"] : List String).takeWhile (fun x => x != mergeBase)).length :=
  compareBranchToDefault_counts ["C", "B", "A"] ["E", "D", "B", "A"] ⟨2, 1, "diverged"⟩ rfl

/-- C3: when no fork commit belongs to the upstream membership set
(the empty fork list included), the manual calculation fails with the
no-common-ancestor error and returns no comparison. -/
theorem compareBranchToDefault_unrelated (upstreamCommits forkCommits : List String)
    (h : ∀ c ∈ forkCommits, upstreamCommits.contains c = false) :
    compareBranchToDefault upstreamCommits forkCommits =
      Except.error "could not find a common ancestor for the compared branches" := by
  have hf : forkCommits.find? (fun x => upstreamCommits.contains x) = none :=
    List.find?_eq_none.mpr (fun x hx => by rw [h x hx]; exact Bool.false_ne_true)
  simp only [compareBranchToDefault, findMergeBase_eq]
  rw [hf]
  simp

theorem compareBranchToDefault_unrelated_witness :
    compareBranchToDefault ["A"] ["X", "Y"] =
      Except.error "could not find a common ancestor for the compared branches" ∧
    compareBranchToDefault ["A"] [] =
      Except.error "could not find a common ancestor for the compared branches" :=
  ⟨compareBranchToDefault_unrelated ["A"] ["X", "Y"] (by decide),
   compareBranchToDefault_unrelated ["A"] [] (by decide)⟩

/-! ## Status derivation lemmas -/

lemma statusFor_pos_zero (a : Nat) : statusFor (a + 1) 0 = "ahead" := by
  unfold statusFor; rw [if_pos ⟨Nat.succ_pos a, rfl⟩]

lemma statusFor_zero_pos (b : Nat) : statusFor 0 (b + 1) = "behind" := by
  unfold statusFor
  rw [if_neg (by omega), if_pos ⟨rfl, Nat.succ_pos b⟩]

lemma statusFor_zero_zero : statusFor 0 0 = "identical" := by
  unfold statusFor
  rw [if_neg (by omega), if_neg (by omega), if_pos ⟨rfl, rfl⟩]

lemma statusFor_pos_pos (a b : Nat) : statusFor (a + 1) (b + 1) = "diverged" := by
  unfold statusFor
  rw [if_neg (by omega), if_neg (by omega), if_neg (by omega)]

lemma statusFor_invariant (a b : Nat) : statusInvariant ⟨a, b, statusFor a b⟩ := by
  rcases a with _ | a <;> rcases b with _ | b
  · rw [statusFor_zero_zero]; decide
  · rw [statusFor_zero_pos]; simp [statusInvariant]
  · rw [statusFor_pos_zero]; simp [statusInvariant]
  · rw [statusFor_pos_pos]; simp [statusInvariant]

lemma compareBranchToDefault_invariant (upstreamCommits forkCommits : List String)
    (c : BranchComparison)
    (h : compareBranchToDefault upstreamCommits forkCommits = Except.ok c) :
    statusInvariant c := by
  simp only [compareBranchToDefault] at h
  split at h
  · cases h
  · injection h with h2
    rw [← h2]
    exact statusFor_invariant _ _

/-- C4 counterexample: the GitHub variant forwards whatever triple the
native compare endpoint returned, so a response pairing counters (0, 0)
with status "ahead" is returned as such, violating the claimed invariant. -/
theorem GithubProvider.CompareBranchWithDefault_passthrough_counterexample :
    GithubProvider.CompareBranchWithDefault "main" "owner" "forkOwner" "feature"
        (Except.ok ⟨0, 0, "ahead"⟩) = Except.ok ⟨0, 0, "ahead"⟩ ∧
    ¬ statusInvariant ⟨0, 0, "ahead"⟩ := by
  exact ⟨rfl, by decide⟩

/-- C4 (amended): every comparison returned successfully by the GitLab
variant satisfies the status invariant, on the self-comparison short
circuit as well as through the manual calculation; the GitHub variant
guarantees it only on its short circuit, and otherwise returns the native
endpoint result unchanged, so there the invariant holds exactly when the
API response satisfies it. -/
theorem CompareBranchWithDefault_status_invariant :
    (∀ defaultBranch owner forkOwner localBranch upstreamCommits forkCommits c,
       GitlabProvider.CompareBranchWithDefault defaultBranch owner forkOwner localBranch
           upstreamCommits forkCommits = Except.ok c → statusInvariant c) ∧
    (∀ defaultBranch owner forkOwner localBranch native c,
       GithubProvider.CompareBranchWithDefault defaultBranch owner forkOwner localBranch
           native = Except.ok c →
         c = ⟨0, 0, "identical"⟩ ∨ native = Except.ok c) := by
  constructor
  · intro defaultBranch owner forkOwner localBranch upstreamCommits forkCommits c h
    unfold GitlabProvider.CompareBranchWithDefault at h
    split at h
    · injection h with h2
      rw [← h2]
      decide
    · exact compareBranchToDefault_invariant upstreamCommits forkCommits c h
  · intro defaultBranch owner forkOwner localBranch native c h
    unfold GithubProvider.CompareBranchWithDefault at h
    split at h
    · injection h with h2
      exact Or.inl h2.symm
    · match native, h with
      | Except.ok comparison, h =>
        injection h with h2
        exact Or.inr (by rw [← h2])

theorem CompareBranchWithDefault_status_invariant_witness :
    statusInvariant ⟨1, 2, "diverged"⟩ :=
  CompareBranchWithDefault_status_invariant.1 "main" "owner" "forkOwner" "feature"
    ["U2", "U1", "M"] ["F1", "M"] ⟨1, 2, "diverged"⟩ rfl

/-- C9: the GitHub release lookup converts every completed error response
with status at least 400 into the sentinel release without error (the 5xx
server errors included), while non-response failures are surfaced as
errors. -/
theorem GithubProvider.GetLatestRelease_error_handling
    (statusCode : Nat) (h : 400 ≤ statusCode) :
    GithubProvider.GetLatestRelease (GithubReleaseOutcome.errorResponse statusCode) =
        Except.ok ⟨"No releases found", "", "", ""⟩ ∧
    ∀ msg, GithubProvider.GetLatestRelease (GithubReleaseOutcome.otherFailure msg) =
        Except.error ("xplane: error fetching latest release from Github: " ++ msg) := by
  constructor
  · simp [GithubProvider.GetLatestRelease, h]
  · intro msg
    rfl

theorem GithubProvider.GetLatestRelease_error_handling_witness :
    GithubProvider.GetLatestRelease (GithubReleaseOutcome.errorResponse 500) =
        Except.ok ⟨"No releases found", "", "", ""⟩ ∧
    ∀ msg, GithubProvider.GetLatestRelease (GithubReleaseOutcome.otherFailure msg) =
        Except.error ("xplane: error fetching latest release from Github: " ++ msg) :=
  GithubProvider.GetLatestRelease_error_handling 500 (by decide)

/-- C2: the URL pattern cannot match any remote URL carrying a port: the
host class excludes the colon and the owner class cannot span the
port/owner slash, so parseGitURL fails on the ssh and https port forms
its own test table expects to parse, while the four portless forms parse
to the expected triples and malformed inputs fail. -/
theorem parseGitURL_rejects_ports :
    parseGitURL "ssh://git@gitlab.example.com:2222/user/repo.git" =
      Except.error "could not parse owner and repo from url: ssh://git@gitlab.example.com:2222/user/repo.git" ∧
    parseGitURL "https://gitlab.example.com:8080/user/repo.git" =
      Except.error "could not parse owner and repo from url: https://gitlab.example.com:8080/user/repo.git" ∧
    parseGitURL "https://github.com/user/repo.git" = Except.ok ("github.com", "user", "repo") ∧
    parseGitURL "https://github.com/user/repo" = Except.ok ("github.com", "user", "repo") ∧
    parseGitURL "git@github.com:user/repo.git" = Except.ok ("github.com", "user", "repo") ∧
    parseGitURL "git@github.com:user/repo" = Except.ok ("github.com", "user", "repo") ∧
    parseGitURL "https://gitlab.example.com/team/project.git" =
      Except.ok ("gitlab.example.com", "team", "project") ∧
    parseGitURL "not-a-url" = Except.error "could not parse owner and repo from url: not-a-url" ∧
    parseGitURL "git@github.com" = Except.error "could not parse owner and repo from url: git@github.com" ∧
    parseGitURL "" = Except.error "could not parse owner and repo from url: " := by
  refine ⟨rfl, rfl, rfl, rfl, rfl, rfl, rfl, rfl, rfl, rfl⟩

/-! ## Gathering loop lemmas -/

lemma commandSkipped_github (t : String) :
    commandSkipped false "github" t = (t == "gitlab_mrs") := by
  by_cases h : t = "gitlab_mrs"
  · subst h; rfl
  · have hb : (t == "gitlab_mrs") = false := by simp [h]
    simp [commandSkipped, hb]

lemma commandSkipped_gitlab (t : String) :
    commandSkipped false "gitlab" t = (t == "github_prs") := by
  by_cases h : t = "github_prs"
  · subst h; rfl
  · have hb : (t == "github_prs") = false := by simp [h]
    simp [commandSkipped, hb]

lemma gatherLoop_eq_spec_filter (providerName bad : String)
    (hsk : ∀ t, commandSkipped false providerName t = (t == bad))
    (run : String → Except String String) (cmds : List String) :
    gatherLoop false providerName run cmds
      = gatherSectionsSpec run ((cmds.map trimSpace).filter (fun t => t != bad)) := by
  induction cmds with
  | nil => rfl
  | cons command rest ih =>
    by_cases h : (trimSpace command == bad) = true
    · simp only [gatherLoop, hsk, h, if_pos]
      simp [List.filter_cons, bne, h, ih]
    · simp only [Bool.not_eq_true] at h
      simp only [gatherLoop, hsk, h]
      simp [List.filter_cons, bne, h, ih, gatherSectionsSpec]

/-- C10: with an initialized provider named github, the gathering loop
silently drops exactly the producer named gitlab_mrs (no CONTEXT FROM
section for it) and processes every other configured producer unchanged in
input order; symmetrically, a provider named gitlab drops github_prs. -/
theorem gatherContext_provider_name_skip
    (commands : List String) (useProjectKnowledge : Bool)
    (run : String → Except String String) :
    gatherContext ⟨commands, useProjectKnowledge⟩ false "github" run
      = gatherSectionsSpec run ((commands.map trimSpace).filter (fun t => t != "gitlab_mrs")) ∧
    gatherContext ⟨commands, useProjectKnowledge⟩ false "gitlab" run
      = gatherSectionsSpec run ((commands.map trimSpace).filter (fun t => t != "github_prs")) :=
  ⟨gatherLoop_eq_spec_filter "github" "gitlab_mrs" commandSkipped_github run commands,
   gatherLoop_eq_spec_filter "gitlab" "github_prs" commandSkipped_gitlab run commands⟩

/-- C8: a non-skipped producer failing makes the whole gathering pass fail
with an error (so no snapshot text is produced), and a failed gathering
pass leaves the previously persisted dynamic-context file untouched, since
contextCompare exits before any snapshot write. -/
theorem gatherContext_producer_error_aborts :
    (∀ (initFailed : Bool) (providerName : String) (run : String → Except String String)
       (cmds : List String) (command e : String),
       command ∈ cmds →
       commandSkipped initFailed providerName (trimSpace command) = false →
       run (trimSpace command) = Except.error e →
       ∃ e2, gatherLoop initFailed providerName run cmds = Except.error e2) ∧
    (∀ (fs : FileSystem) (cfg : Config) (initFailed : Bool) (providerName : String)
       (run : String → Except String String) (summarize : String → Except String String)
       (timestamp e : String),
       gatherContext cfg initFailed providerName run = Except.error e →
       (contextCompare fs cfg initFailed providerName run summarize timestamp).dynamicFile
          = fs.dynamicFile) := by
  constructor
  · intro initFailed providerName run cmds
    induction cmds with
    | nil => intro command e hmem; cases hmem
    | cons head rest ih =>
      intro command e hmem hns herr
      rcases List.mem_cons.mp hmem with hc | hc
      · subst hc
        refine ⟨"error running command \x27" ++ trimSpace command ++ "\x27: " ++ e, ?_⟩
        simp only [gatherLoop, hns, if_neg Bool.false_ne_true, herr]
      · by_cases hs : commandSkipped initFailed providerName (trimSpace head) = true
        · obtain ⟨e2, he2⟩ := ih command e hc hns herr
          exact ⟨e2, by simp only [gatherLoop, hs, if_pos]; exact he2⟩
        · simp only [Bool.not_eq_true] at hs
          rcases hrun : run (trimSpace head) with eh | output
          · exact ⟨"error running command \x27" ++ trimSpace head ++ "\x27: " ++ eh,
              by simp only [gatherLoop, hs, if_neg Bool.false_ne_true, hrun]⟩
          · obtain ⟨e2, he2⟩ := ih command e hc hns herr
            exact ⟨e2, by simp only [gatherLoop, hs, if_neg Bool.false_ne_true, hrun, he2]⟩
  · intro fs cfg initFailed providerName run summarize timestamp e hgather
    cases fs with
    | mk staticFile dynamicFile knowledgeFile =>
      cases staticFile with
      | none => simp [contextCompare, hgather]
      | some s => simp [contextCompare, hgather]

theorem gatherContext_producer_error_aborts_witness :
    (∃ e2, gatherLoop false "github" (fun _ => Except.error "boom") ["git_status"]
        = Except.error e2) ∧
    (contextCompare ⟨some "S", some "old", none⟩ ⟨["git_status"], false⟩ false "github"
        (fun _ => Except.error "boom") (fun _ => Except.ok "summary") "t1").dynamicFile
      = some "old" :=
  ⟨gatherContext_producer_error_aborts.1 false "github" (fun _ => Except.error "boom")
      ["git_status"] "git_status" "boom" (List.mem_singleton.mpr rfl) rfl rfl,
   gatherContext_producer_error_aborts.2 ⟨some "S", some "old", none⟩ ⟨["git_status"], false⟩
      false "github" (fun _ => Except.error "boom") (fun _ => Except.ok "summary") "t1"
      "error running command \x27git_status\x27: boom" rfl⟩

/-- C5: in the Changed outcome (a prior snapshot exists and differs from
the freshly gathered one), the fetched snapshot is persisted as the new
previous value before contextCompare returns, whatever the Summarizer
returns: the deferred write applies on the success path and on the error
path alike. -/
theorem contextCompare_changed_persists_snapshot
    (fs : FileSystem) (cfg : Config) (initFailed : Bool) (providerName : String)
    (run : String → Except String String) (summarize : String → Except String String)
    (timestamp previous fetched : String)
    (hdyn : fs.dynamicFile = some previous)
    (hgather : gatherContext cfg initFailed providerName run = Except.ok fetched)
    (hne : fetched ≠ previous) :
    (contextCompare fs cfg initFailed providerName run summarize timestamp).dynamicFile
      = some fetched := by
  cases fs with
  | mk staticFile dynamicFile knowledgeFile =>
    simp only [FileSystem.dynamicFile] at hdyn
    subst hdyn
    cases staticFile with
    | none => simp [contextCompare, hgather, hne]
    | some s => simp [contextCompare, hgather, hne]

theorem contextCompare_changed_persists_snapshot_witness :
    (contextCompare ⟨some "S", some "old", none⟩ ⟨["x"], false⟩ false "github"
        (fun _ => Except.ok "out") (fun _ => Except.error "llm failed") "t1").dynamicFile
      = some "---CONTEXT FROM: x ---\nout\n\n" ∧
    (contextCompare ⟨some "S", some "old", none⟩ ⟨["x"], false⟩ false "github"
        (fun _ => Except.ok "out") (fun _ => Except.ok "a summary") "t1").dynamicFile
      = some "---CONTEXT FROM: x ---\nout\n\n" :=
  ⟨contextCompare_changed_persists_snapshot ⟨some "S", some "old", none⟩ ⟨["x"], false⟩
      false "github" (fun _ => Except.ok "out") (fun _ => Except.error "llm failed")
      "t1" "old" "---CONTEXT FROM: x ---\nout\n\n" rfl rfl (by decide),
   contextCompare_changed_persists_snapshot ⟨some "S", some "old", none⟩ ⟨["x"], false⟩
      false "github" (fun _ => Except.ok "out") (fun _ => Except.ok "a summary")
      "t1" "old" "---CONTEXT FROM: x ---\nout\n\n" rfl rfl (by decide)⟩

/-! ## Substring lemmas for the extraction header condition -/

lemma startsWith_append_substr (x y : List Char) :
    ∀ s : List Char, listStartsWith s (x ++ y) = true → hasSubstrList y s = true := by
  induction x with
  | nil =>
    intro s h
    cases s with
    | nil => simpa [hasSubstrList] using h
    | cons c cs =>
      simp only [List.nil_append] at h
      simp [hasSubstrList, h]
  | cons a x ih =>
    intro s h
    cases s with
    | nil => simp [listStartsWith] at h
    | cons c cs =>
      simp only [List.cons_append, listStartsWith, Bool.and_eq_true] at h
      have := ih cs h.2
      simp [hasSubstrList, this]

lemma hasSubstr_append (x y : List Char) :
    ∀ s : List Char, hasSubstrList (x ++ y) s = true → hasSubstrList y s = true := by
  intro s
  induction s with
  | nil =>
    intro h
    cases x with
    | nil => simpa [hasSubstrList] using h
    | cons a as => simp [hasSubstrList, listStartsWith] at h
  | cons c cs ih =>
    intro h
    simp only [hasSubstrList, Bool.or_eq_true] at h ⊢
    rcases h with h | h
    · have := startsWith_append_substr x y (c :: cs) h
      simpa [hasSubstrList] using this
    · exact Or.inr (ih h)

/-- The second and third disjuncts of the Go header check are subsumed by
the first: containing "## KNOWLEDGE UPDATE" or "### KNOWLEDGE UPDATE"
implies containing "KNOWLEDGE UPDATE". -/
lemma isKnowledgeHeaderLine_eq (line : String) :
    isKnowledgeHeaderLine line = strContains (toUpperStr line) "KNOWLEDGE UPDATE" := by
  unfold isKnowledgeHeaderLine
  by_cases ha : strContains (toUpperStr line) "KNOWLEDGE UPDATE" = true
  · simp [ha]
  · simp only [Bool.not_eq_true] at ha
    have hb : strContains (toUpperStr line) "## KNOWLEDGE UPDATE" = false := by
      rcases Bool.eq_false_or_eq_true (strContains (toUpperStr line) "## KNOWLEDGE UPDATE") with h | h
      swap
      · exact h
      · have hd : ("## ".data ++ "KNOWLEDGE UPDATE".data) = "## KNOWLEDGE UPDATE".data := by decide
        have := hasSubstr_append "## ".data "KNOWLEDGE UPDATE".data (toUpperStr line).data
          (by unfold strContains at h; rw [hd]; exact h)
        rw [show hasSubstrList "KNOWLEDGE UPDATE".data (toUpperStr line).data
              = strContains (toUpperStr line) "KNOWLEDGE UPDATE" from rfl] at this
        rw [this] at ha; cases ha
    have hc : strContains (toUpperStr line) "### KNOWLEDGE UPDATE" = false := by
      rcases Bool.eq_false_or_eq_true (strContains (toUpperStr line) "### KNOWLEDGE UPDATE") with h | h
      swap
      · exact h
      · have hd : ("### ".data ++ "KNOWLEDGE UPDATE".data) = "### KNOWLEDGE UPDATE".data := by decide
        have := hasSubstr_append "### ".data "KNOWLEDGE UPDATE".data (toUpperStr line).data
          (by unfold strContains at h; rw [hd]; exact h)
        rw [show hasSubstrList "KNOWLEDGE UPDATE".data (toUpperStr line).data
              = strContains (toUpperStr line) "KNOWLEDGE UPDATE" from rfl] at this
        rw [this] at ha; cases ha
    simp [ha, hb, hc]

/-- The Go stopping condition coincides with the boundary condition worded
by the specification. -/
lemma isStopLine_iff (line : String) (acc : List String) :
    isStopLine line acc.length = true ↔
      ((strContains (toUpperStr line) "UNCERTAINTY MAP" = true ∧ acc ≠ []) ∨
       ((strStartsWith (trimSpace line) "## " = true ∨ strStartsWith (trimSpace line) "# " = true) ∧
         strContains (toUpperStr (trimSpace line)) "KNOWLEDGE" = false ∧ 4 ≤ acc.length)) := by
  unfold isStopLine
  simp only [Bool.or_eq_true, Bool.and_eq_true, Bool.not_eq_true', decide_eq_true_eq,
    gt_iff_lt, Nat.lt_iff_add_one_le, Nat.reduceAdd, ← List.length_pos]
  tauto

lemma extractLoop_eq_specLoop (lines : List String) :
    (∀ acc, extractLoop false acc lines = extractSpecLoop ExtractState.Searching acc lines) ∧
    (∀ acc, extractLoop true acc lines = extractSpecLoop ExtractState.Capturing acc lines) := by
  induction lines with
  | nil => exact ⟨fun _ => rfl, fun _ => rfl⟩
  | cons line rest ih =>
    constructor
    · intro acc
      by_cases hh : strContains (toUpperStr line) "KNOWLEDGE UPDATE" = true
      · have hh2 : isKnowledgeHeaderLine line = true := by rw [isKnowledgeHeaderLine_eq]; exact hh
        simp [extractLoop, extractSpecLoop, hh, hh2, ih.2]
      · simp only [Bool.not_eq_true] at hh
        have hh2 : isKnowledgeHeaderLine line = false := by rw [isKnowledgeHeaderLine_eq]; exact hh
        simp [extractLoop, extractSpecLoop, hh, hh2, ih.1]
    · intro acc
      by_cases hb : acc = [] ∧ trimSpace line = ""
      · have hb1 : (acc.length == 0 && (trimSpace line == "")) = true := by
          simp [hb.1, hb.2]
        simp [extractLoop, extractSpecLoop, hb, hb1, ih.2]
      · have hb1 : (acc.length == 0 && (trimSpace line == "")) = false := by
          by_cases h1 : acc = []
          · have h2 : trimSpace line ≠ "" := fun h2 => hb ⟨h1, h2⟩
            simp [h1, h2]
          · simp [h1, List.length_eq_zero]
        by_cases hs : isStopLine line acc.length = true
        · have hs2 := (isStopLine_iff line acc).mp hs
          simp [extractLoop, extractSpecLoop, hb, hb1, hs, hs2]
        · have hs2 : ¬ ((strContains (toUpperStr line) "UNCERTAINTY MAP" = true ∧ acc ≠ []) ∨
              ((strStartsWith (trimSpace line) "## " = true ∨ strStartsWith (trimSpace line) "# " = true) ∧
                strContains (toUpperStr (trimSpace line)) "KNOWLEDGE" = false ∧ 4 ≤ acc.length)) :=
            fun hc => hs ((isStopLine_iff line acc).mpr hc)
          simp only [Bool.not_eq_true] at hs
          simp [extractLoop, extractSpecLoop, hb, hb1, hs, hs2, ih.2]

/-- C6 counterexample: a captured section of 25 two-byte characters is 50
UTF-8 bytes, so Go len does not discard it, although the resulting text
has only 25 characters, fewer than 50. -/
theorem extractKnowledgeUpdate_byte_counterexample :
    extractKnowledgeUpdate ("KNOWLEDGE UPDATE\n" ++ String.mk (List.replicate 25 '§'))
        = String.mk (List.replicate 25 '§') ∧
    (String.mk (List.replicate 25 '§')).length < 50 ∧
    String.mk (List.replicate 25 '§') ≠ "" := by decide

/-- C6 (amended): extractKnowledgeUpdate behaves exactly as the
specification state machine describes, capturing the lines after the
first case-insensitive KNOWLEDGE UPDATE line, skipping leading blank
lines, stopping at UNCERTAINTY MAP once content exists or at a heading
not mentioning knowledge once at least four lines are captured, trimming
trailing blank lines, and discarding any result shorter than 50 UTF-8
bytes (50 characters for ASCII text; the Go length is the byte count). -/
theorem extractKnowledgeUpdate_eq_spec (response : String) :
    extractKnowledgeUpdate response = extractUpdateSpec response := by
  unfold extractKnowledgeUpdate extractUpdateSpec
  rw [← (extractLoop_eq_specLoop (splitLines response)).1 []]
  by_cases h : extractLoop false [] (splitLines response) = []
  · simp [h]
  · have h2 : ((extractLoop false [] (splitLines response)).length == 0) = false := by
      simp [h, List.length_eq_zero]
    simp [h, h2]

/-! ## Knowledge ledger lemmas: line splitting and joining -/

lemma splitLinesAux_ne_nil (cs : List Char) : splitLinesAux cs ≠ [] := by
  cases cs with
  | nil => simp [splitLinesAux]
  | cons c rest =>
    by_cases h : c = '\n'
    · simp [splitLinesAux, h]
    · simp only [splitLinesAux, if_neg h]
      rcases splitLinesAux rest with _ | ⟨rh, rt⟩ <;> simp

lemma splitLinesAux_newline (ys : List Char) :
    splitLinesAux ('\n' :: ys) = [] :: splitLinesAux ys := by
  simp [splitLinesAux]

lemma splitLinesAux_append_nf (xs : List Char) (h : ∀ c ∈ xs, c ≠ '\n') (ys : List Char) :
    splitLinesAux (xs ++ ys) =
      (xs ++ (splitLinesAux ys).headD []) :: (splitLinesAux ys).tail := by
  induction xs with
  | nil =>
    rcases hr : splitLinesAux ys with _ | ⟨rh, rt⟩
    · exact absurd hr (splitLinesAux_ne_nil ys)
    · simp [hr]
  | cons x xs ih =>
    have hx : x ≠ '\n' := h x (List.mem_cons_self x xs)
    have ih2 := ih (fun c hc => h c (List.mem_cons_of_mem x hc))
    simp only [List.cons_append, splitLinesAux, if_neg hx, List.append_eq]
    rw [ih2]

lemma charJoinLines_cons_ne (l : List Char) (ls : List (List Char)) (h : ls ≠ []) :
    charJoinLines (l :: ls) = l ++ '\n' :: charJoinLines ls := by
  cases ls with
  | nil => exact absurd rfl h
  | cons a as => rfl

lemma charJoinLines_splitLinesAux (cs : List Char) :
    charJoinLines (splitLinesAux cs) = cs := by
  induction cs with
  | nil => rfl
  | cons c rest ih =>
    by_cases h : c = '\n'
    · subst h
      rw [splitLinesAux_newline,
          charJoinLines_cons_ne [] (splitLinesAux rest) (splitLinesAux_ne_nil rest)]
      simp [ih]
    · simp only [splitLinesAux, if_neg h]
      rcases hr : splitLinesAux rest with _ | ⟨rh, rt⟩
      · exact absurd hr (splitLinesAux_ne_nil rest)
      · rw [hr] at ih
        cases rt with
        | nil =>
          simp only [charJoinLines] at ih ⊢
          rw [ih]
        | cons b bs =>
          rw [charJoinLines_cons_ne rh (b :: bs) (by simp)] at ih
          rw [charJoinLines_cons_ne (c :: rh) (b :: bs) (by simp)]
          simp [ih]

lemma map_data_map_mk (l : List (List Char)) :
    (l.map String.mk).map String.data = l := by
  simp [List.map_map]
  exact List.map_id l

lemma splitLines_knowledge_header (t b : String) (ht : ∀ c ∈ t.data, c ≠ '\n') :
    splitLines ("# Project Knowledge\n\n*Last updated: " ++ t ++ "*\n\n" ++ b)
      = "# Project Knowledge" :: "" :: ("*Last updated: " ++ t ++ "*") :: "" :: splitLines b := by
  have hM : ∀ c ∈ ("*Last updated: ".data ++ (t.data ++ ['*'])), c ≠ '\n' := by
    intro c hc hceq
    subst hceq
    simp only [List.mem_append, List.mem_singleton] at hc
    rcases hc with hc | hc | hc
    · revert hc; decide
    · exact ht '\n' hc rfl
    · exact absurd hc (by decide)
  have hdata : ("# Project Knowledge\n\n*Last updated: " ++ t ++ "*\n\n" ++ b).data
      = "# Project Knowledge".data ++
          ('\n' :: '\n' :: (("*Last updated: ".data ++ (t.data ++ ['*'])) ++
            ('\n' :: '\n' :: b.data))) := by
    show (("# Project Knowledge\n\n*Last updated: ".data ++ t.data) ++ "*\n\n".data) ++ b.data = _
    have h1 : "# Project Knowledge\n\n*Last updated: ".data
        = "# Project Knowledge".data ++ ('\n' :: '\n' :: "*Last updated: ".data) := by decide
    rw [h1]
    simp [List.append_assoc]
  unfold splitLines
  rw [hdata,
      splitLinesAux_append_nf "# Project Knowledge".data (by decide) _,
      splitLinesAux_newline, splitLinesAux_newline,
      splitLinesAux_append_nf ("*Last updated: ".data ++ (t.data ++ ['*'])) hM _,
      splitLinesAux_newline, splitLinesAux_newline]
  simp only [List.headD_cons, List.tail_cons, List.append_nil, List.map]
  rfl

lemma stripKnowledgeHeader_of_header (t b : String)
    (ht : ∀ c ∈ t.data, c ≠ '\n') (hb : trimSpace b = b) :
    stripKnowledgeHeader ("# Project Knowledge\n\n*Last updated: " ++ t ++ "*\n\n" ++ b) = b := by
  unfold stripKnowledgeHeader
  rw [splitLines_knowledge_header t b ht]
  have hcond : ((("# Project Knowledge" :: "" :: ("*Last updated: " ++ t ++ "*") :: "" ::
      splitLines b).length ≥ 3 : Bool) &&
      strStartsWith (("# Project Knowledge" :: "" :: ("*Last updated: " ++ t ++ "*") :: "" ::
        splitLines b).headD "") "# Project Knowledge") = true := by
    simp [List.length_cons]
    decide
  rw [if_pos hcond]
  have hdrop : ("# Project Knowledge" :: "" :: ("*Last updated: " ++ t ++ "*") :: "" ::
      splitLines b).drop 3 = "" :: splitLines b := rfl
  rw [hdrop]
  have hjoin : joinLines ("" :: splitLines b) = String.mk ('\n' :: b.data) := by
    unfold joinLines splitLines
    rw [List.map_cons, map_data_map_mk]
    rw [charJoinLines_cons_ne _ _ (splitLinesAux_ne_nil b.data)]
    rw [charJoinLines_splitLinesAux]
    rfl
  rw [hjoin]
  have htrim : trimSpace (String.mk ('\n' :: b.data)) = trimSpace b := by
    unfold trimSpace
    simp [List.dropWhile, isSpaceGo]
  rw [htrim, hb]

/-- C7: writing body b1 onto an absent or placeholder ledger and then body
b2 yields a ledger carrying b2 under the Latest Update heading above a
Previous Knowledge section that contains b1 verbatim; in general a write
never deletes or reorders the accumulated body, it only prepends the new
timestamped entry in front of it (the previous body is a verbatim suffix). -/
theorem writeKnowledgeFile_prepend_ledger :
    (∀ t1 t2 b1 b2 : String,
       (∀ c ∈ t1.data, c ≠ '\n') → trimSpace b1 = b1 → b1 ≠ "" →
       b1 ≠ initialKnowledgeContent →
       writeKnowledgeFile (some (writeKnowledgeFile none t1 b1)) t2 b2
         = "# Project Knowledge\n\n*Last updated: " ++ t2 ++ "*\n\n## Latest Update (" ++ t2 ++
           ")\n\n" ++ b2 ++ "\n\n---\n\n## Previous Knowledge\n\n" ++ b1) ∧
    (∀ t0 t1 : String, (∀ c ∈ t0.data, c ≠ '\n') → ∀ b1 : String,
       writeKnowledgeFile (some (writeKnowledgeFile none t0 initialKnowledgeContent)) t1 b1
         = writeKnowledgeFile none t1 b1) ∧
    (∀ existing t newBody : String,
       stripKnowledgeHeader existing ≠ "" →
       stripKnowledgeHeader existing ≠ initialKnowledgeContent →
       writeKnowledgeFile (some existing) t newBody
         = "# Project Knowledge\n\n*Last updated: " ++ t ++ "*\n\n## Latest Update (" ++ t ++
           ")\n\n" ++ newBody ++ "\n\n---\n\n## Previous Knowledge\n\n" ++
           stripKnowledgeHeader existing) := by
  refine ⟨?_, ?_, ?_⟩
  · intro t1 t2 b1 b2 ht1 hb1 hne hni
    have h0 : writeKnowledgeFile none t1 b1
        = "# Project Knowledge\n\n*Last updated: " ++ t1 ++ "*\n\n" ++ b1 := rfl
    rw [h0]
    have h1 : (b1 == "") = false := by simp [hne]
    have h2 : (b1 == initialKnowledgeContent) = false := by simp [hni]
    simp only [writeKnowledgeFile, stripKnowledgeHeader_of_header t1 b1 ht1 hb1, h1, h2,
      Bool.or_self, Bool.false_or, if_neg Bool.false_ne_true]
  · intro t0 t1 ht0 b1
    have h0 : writeKnowledgeFile none t0 initialKnowledgeContent
        = "# Project Knowledge\n\n*Last updated: " ++ t0 ++ "*\n\n" ++ initialKnowledgeContent := rfl
    rw [h0]
    simp only [writeKnowledgeFile,
      stripKnowledgeHeader_of_header t0 initialKnowledgeContent ht0 (by decide)]
    simp
  · intro existing t newBody h1 h2
    have hb1 : (stripKnowledgeHeader existing == "") = false := by simp [h1]
    have hb2 : (stripKnowledgeHeader existing == initialKnowledgeContent) = false := by simp [h2]
    simp only [writeKnowledgeFile, hb1, hb2, Bool.or_self, Bool.false_or,
      if_neg Bool.false_ne_true]

theorem writeKnowledgeFile_prepend_ledger_witness :
    writeKnowledgeFile (some (writeKnowledgeFile none "2025-01-02 03:04:05"
        "First architecture decision: the provider layer is polymorphic."))
        "2025-01-02 04:00:00" "Second insight."
      = "# Project Knowledge\n\n*Last updated: " ++ "2025-01-02 04:00:00" ++
        "*\n\n## Latest Update (" ++ "2025-01-02 04:00:00" ++ ")\n\n" ++ "Second insight." ++
        "\n\n---\n\n## Previous Knowledge\n\n" ++
        "First architecture decision: the provider layer is polymorphic." ∧
    writeKnowledgeFile (some (writeKnowledgeFile none "2025-01-01 00:00:00" initialKnowledgeContent))
        "2025-01-02 03:04:05" "First architecture decision: the provider layer is polymorphic."
      = writeKnowledgeFile none "2025-01-02 03:04:05"
          "First architecture decision: the provider layer is polymorphic." ∧
    writeKnowledgeFile (some "# Project Knowledge\n\n*Last updated: x*\n\nOld body") "t" "New body"
      = "# Project Knowledge\n\n*Last updated: " ++ "t" ++ "*\n\n## Latest Update (" ++ "t" ++
        ")\n\n" ++ "New body" ++ "\n\n---\n\n## Previous Knowledge\n\n" ++
        stripKnowledgeHeader "# Project Knowledge\n\n*Last updated: x*\n\nOld body" :=
  ⟨writeKnowledgeFile_prepend_ledger.1 "2025-01-02 03:04:05" "2025-01-02 04:00:00"
      "First architecture decision: the provider layer is polymorphic." "Second insight."
      (by decide) (by decide) (by decide) (by decide),
   writeKnowledgeFile_prepend_ledger.2.1 "2025-01-01 00:00:00" "2025-01-02 03:04:05" (by decide)
      "First architecture decision: the provider layer is polymorphic.",
   writeKnowledgeFile_prepend_ledger.2.2 "# Project Knowledge\n\n*Last updated: x*\n\nOld body"
      "t" "New body" (by decide) (by decide)⟩
